import Mathlib

/-!
# Verification of the skribo HarfBuzz shaping back-end (`src/hb_layout.rs`)

A shallow embedding of `hb_layout.rs`.  The HarfBuzz shaping engine itself is
an external collaborator: it is modelled as a parameter (`Engine`) that, given
a face and a configured buffer, returns the two parallel output arrays
(glyph infos and glyph positions) that `hb_buffer_get_glyph_infos` /
`hb_buffer_get_glyph_positions` expose.  The `f32` arithmetic of the source is
modelled over `ℚ`; Rust panics (`expect`) are modelled by an explicit
`HbResult.panic` outcome.
-/

namespace Skribo

/-- 2D vector, the embedding of `euclid::Vector2D` as used in `hb_layout.rs`
(components are `f32` after `to_f32()`, modelled as `ℚ`). -/
structure Vec2 where
  x : ℚ
  y : ℚ
deriving DecidableEq, Repr

/-- `Vector2D::zero()`. -/
def Vec2.zero : Vec2 := ⟨0, 0⟩

/-- Componentwise vector addition (`+` / `+=` on `Vector2D`). -/
def Vec2.add (a b : Vec2) : Vec2 := ⟨a.x + b.x, a.y + b.y⟩

instance : Add Vec2 := ⟨Vec2.add⟩

/-- Scalar multiplication `v * scale` on `Vector2D<f32>`: one scalar applied
uniformly to both axes. -/
def Vec2.scale (c : ℚ) (v : Vec2) : Vec2 := ⟨v.x * c, v.y * c⟩

/-- Sum of a list of vectors (used only in specifications, for the
"independent summation" checks). -/
def vecSum (l : List Vec2) : Vec2 := l.foldr Vec2.add Vec2.zero

/-- Embedding of `hb_glyph_info_t`: engine glyph index (`codepoint`), cluster
id, and the glyph flag word read by `hb_glyph_info_get_glyph_flags`. -/
structure GlyphInfo where
  codepoint : Nat
  cluster : Nat
  flags : Nat
deriving DecidableEq, Repr

/-- Embedding of `hb_glyph_position_t` (`hb_position_t` is a 32-bit integer;
modelled as `Int`). -/
structure GlyphPos where
  x_advance : Int
  y_advance : Int
  x_offset : Int
  y_offset : Int
deriving DecidableEq, Repr

/-- `HB_GLYPH_FLAG_UNSAFE_TO_BREAK` (value `0x00000001` in HarfBuzz). -/
def HB_GLYPH_FLAG_UNSAFE_TO_BREAK : Nat := 1

/-- `hb_glyph_info_get_glyph_flags`: reads the flag word of a glyph info. -/
def hb_glyph_info_get_glyph_flags (g : GlyphInfo) : Nat := g.flags

/-- `HB_SCRIPT_DEVANAGARI`: the tag `'Deva'` = `0x44657661`. -/
def HB_SCRIPT_DEVANAGARI : Nat := 0x44657661

/-- `harfbuzz::Direction` (the source only ever uses `LTR`). -/
inductive Direction where
  | Invalid
  | LTR
  | RTL
  | TTB
  | BTT
deriving DecidableEq, Repr

/-- Embedding of the application font handle `FontRef`: it exposes
`font.copy_font_data()` (fallible: `Option` of the raw bytes) and
`font.metrics().units_per_em`. -/
structure FontRef where
  fontData : Option (List Nat)
  unitsPerEm : Nat
deriving DecidableEq, Repr

/-- `font.copy_font_data()`. -/
def FontRef.copy_font_data (f : FontRef) : Option (List Nat) := f.fontData

/-- `TextStyle`: carries the requested size (`f32`, modelled as `ℚ`). -/
structure TextStyle where
  size : ℚ
deriving DecidableEq, Repr

/-- Embedding of `HbFace`: holds the blob (raw font bytes) the native face was
built from.  The native `hb_face_t` handle is opaque and fully determined by
the blob handed to `hb_face_create`. -/
structure HbFace where
  blob : List Nat
deriving DecidableEq, Repr

/-- Outcome of a Rust computation that may `panic!` / `expect`: `panic` models
process abort (unrecoverable), `ok` a normal return. -/
inductive HbResult (α : Type) where
  | panic (msg : String)
  | ok (a : α)
deriving DecidableEq, Repr

/-- `true` iff the computation returned normally (did not abort). -/
def HbResult.isOk {α : Type} : HbResult α → Bool
  | .panic _ => false
  | .ok _ => true

/-- `HbFace::new(font)`: extracts the raw font bytes with
`copy_font_data().expect("font data unavailable")` — aborting when extraction
fails — and builds the face from the resulting blob. -/
def HbFace.new (font : FontRef) : HbResult HbFace :=
  match font.copy_font_data with
  | none => .panic "font data unavailable"
  | some data => .ok { blob := data }

/-- The shaping buffer's configuration state: text content, writing
direction, script tag, language tag, plus whether the Unicode-property
callback set has been installed (`install_unicode_funcs`). -/
structure Buffer where
  text : String
  direction : Direction
  script : Nat
  language : String
  unicodeFuncs : Bool
deriving DecidableEq, Repr

/-- `Buffer::new()`: a fresh, unconfigured buffer. -/
def Buffer.new : Buffer :=
  { text := "", direction := .Invalid, script := 0, language := "", unicodeFuncs := false }

/-- `install_unicode_funcs(&mut b)` (external collaborator; only its effect on
the buffer state is tracked). -/
def install_unicode_funcs (b : Buffer) : Buffer := { b with unicodeFuncs := true }

/-- `b.add_str(text)`. -/
def Buffer.add_str (b : Buffer) (t : String) : Buffer := { b with text := b.text ++ t }

/-- `b.set_direction(dir)`. -/
def Buffer.set_direction (b : Buffer) (d : Direction) : Buffer := { b with direction := d }

/-- `b.set_script(script)`. -/
def Buffer.set_script (b : Buffer) (s : Nat) : Buffer := { b with script := s }

/-- `b.set_language(lang)`. -/
def Buffer.set_language (b : Buffer) (l : String) : Buffer := { b with language := l }

/-- The buffer `layout_run` configures before shaping (lines 44–50 of
`hb_layout.rs`): fresh buffer, Unicode funcs installed, text appended,
direction `LTR`, script hard-coded to `HB_SCRIPT_DEVANAGARI`, language
`"en_US"`. -/
def run_buffer (text : String) : Buffer :=
  ((((install_unicode_funcs Buffer.new).add_str text).set_direction
      Direction.LTR).set_script HB_SCRIPT_DEVANAGARI).set_language "en_US"

/-- The buffer `layout_fragment` configures before shaping (lines 94–99 of
`hb_layout.rs`): identical to `run_buffer` except that the script tag is the
caller-supplied one. -/
def fragment_buffer (script : Nat) (text : String) : Buffer :=
  ((((install_unicode_funcs Buffer.new).add_str text).set_direction
      Direction.LTR).set_script script).set_language "en_US"

/-- The external shaping engine: `hb_shape` followed by
`hb_buffer_get_glyph_infos` / `hb_buffer_get_glyph_positions`.  Given the face
and the configured buffer, it yields the two parallel output arrays.  Held
abstract: its shaping algorithm is out of scope. -/
def Engine : Type := HbFace → Buffer → List GlyphInfo × List GlyphPos

/-- `scale = style.size / (font.font.metrics().units_per_em as f32)`
(line 65 / line 115 of `hb_layout.rs`). -/
def glyph_scale (style : TextStyle) (font : FontRef) : ℚ :=
  style.size / (font.unitsPerEm : ℚ)

/-- `adv.to_f32() * scale`: a glyph position's advance converted to output
units (lines 68–69 / 117–118). -/
def scaled_advance (scale : ℚ) (pos : GlyphPos) : Vec2 :=
  Vec2.scale scale ⟨(pos.x_advance : ℚ), (pos.y_advance : ℚ)⟩

/-- `Vector2D::new(pos.x_offset, pos.y_offset).to_f32() * scale`
(line 70 / line 119). -/
def scaled_offset (scale : ℚ) (pos : GlyphPos) : Vec2 :=
  Vec2.scale scale ⟨(pos.x_offset : ℚ), (pos.y_offset : ℚ)⟩

/-- Embedding of `Glyph` (`layout_run` path): owning font, engine glyph
index, and offset relative to the run origin.  These are its only fields. -/
structure Glyph where
  font : FontRef
  glyph_id : Nat
  offset : Vec2
deriving DecidableEq, Repr

/-- Embedding of `FragmentGlyph` (`layout_fragment` path). -/
structure FragmentGlyph where
  cluster : Nat
  advance : Vec2
  glyph_id : Nat
  offset : Vec2
  unsafe_to_break : Bool
deriving DecidableEq, Repr

/-- Embedding of `Layout` (legacy path). -/
structure Layout where
  size : ℚ
  glyphs : List Glyph
  advance : Vec2
deriving DecidableEq, Repr

/-- Embedding of `LayoutFragment`. -/
structure LayoutFragment where
  substr_len : Nat
  script : Nat
  glyphs : List FragmentGlyph
  advance : Vec2
  hb_face : HbFace
  font : FontRef
deriving DecidableEq, Repr

/-- The extraction loop of `layout_run` (lines 66–78): walks the zipped
glyph-info/position pairs with the running `total_adv` accumulator, storing
each glyph's offset before adding its own scaled advance.  Returns the glyph
list and the final accumulator. -/
def extract_run_glyphs (font : FontRef) (scale : ℚ) (total_adv : Vec2) :
    List (GlyphInfo × GlyphPos) → List Glyph × Vec2
  | [] => ([], total_adv)
  | (glyph, pos) :: rest =>
    let adv_f := scaled_advance scale pos
    let offset := scaled_offset scale pos
    let g : Glyph :=
      { font := font
        glyph_id := glyph.codepoint
        offset := total_adv + offset }
    let r := extract_run_glyphs font scale (total_adv + adv_f) rest
    (g :: r.1, r.2)

/-- The extraction loop of `layout_fragment` (lines 116–138): like
`extract_run_glyphs` but additionally records the cluster id, the glyph's own
scaled advance, and the unsafe-to-break flag decoded from the flag word. -/
def extract_fragment_glyphs (scale : ℚ) (total_adv : Vec2) :
    List (GlyphInfo × GlyphPos) → List FragmentGlyph × Vec2
  | [] => ([], total_adv)
  | (glyph, pos) :: rest =>
    let adv_f := scaled_advance scale pos
    let offset := scaled_offset scale pos
    let flags := hb_glyph_info_get_glyph_flags glyph
    let unsafe_to_break := flags &&& HB_GLYPH_FLAG_UNSAFE_TO_BREAK != 0
    let g : FragmentGlyph :=
      { cluster := glyph.cluster
        advance := adv_f
        glyph_id := glyph.codepoint
        offset := total_adv + offset
        unsafe_to_break := unsafe_to_break }
    let r := extract_fragment_glyphs scale (total_adv + adv_f) rest
    (g :: r.1, r.2)

/-- The two parallel output arrays of the shaped buffer, zipped pairwise: the
source iterates `glyph_infos.iter().zip(glyph_positions.iter())`
(lines 57–66 / 106–116). -/
def shaped_pairs (e : Engine) (face : HbFace) (b : Buffer) :
    List (GlyphInfo × GlyphPos) :=
  (e face b).1.zip (e face b).2

/-- `layout_run(style, font, text)` (lines 43–86): configure the buffer,
build the face (aborting if font data is unavailable), shape, and extract the
flat glyph sequence. -/
def layout_run (e : Engine) (style : TextStyle) (font : FontRef) (text : String) :
    HbResult Layout :=
  let b := run_buffer text
  match HbFace.new font with
  | .panic msg => .panic msg
  | .ok hb_face =>
    let scale := glyph_scale style font
    let r := extract_run_glyphs font scale Vec2.zero (shaped_pairs e hb_face b)
    .ok { size := style.size, glyphs := r.1, advance := r.2 }

/-- `layout_fragment(style, font, script, text)` (lines 88–150). -/
def layout_fragment (e : Engine) (style : TextStyle) (font : FontRef)
    (script : Nat) (text : String) : HbResult LayoutFragment :=
  let b := fragment_buffer script text
  match HbFace.new font with
  | .panic msg => .panic msg
  | .ok hb_face =>
    let scale := glyph_scale style font
    let r := extract_fragment_glyphs scale Vec2.zero (shaped_pairs e hb_face b)
    .ok { substr_len := text.utf8ByteSize
          script := script
          glyphs := r.1
          advance := r.2
          hb_face := hb_face
          font := font }

/-! ## Helper lemmas -/

theorem Vec2.add_def (a b : Vec2) : a + b = ⟨a.x + b.x, a.y + b.y⟩ := rfl

theorem Vec2.zero_add (v : Vec2) : Vec2.zero + v = v := by
  cases v
  simp [Vec2.add_def, Vec2.zero]

theorem Vec2.add_zero (v : Vec2) : v + Vec2.zero = v := by
  cases v
  simp [Vec2.add_def, Vec2.zero]

theorem Vec2.add_assoc (a b c : Vec2) : a + b + c = a + (b + c) := by
  simp only [Vec2.add_def, Vec2.mk.injEq]
  refine ⟨?_, ?_⟩ <;> ring

theorem vecSum_nil : vecSum [] = Vec2.zero := rfl

theorem vecSum_cons (v : Vec2) (l : List Vec2) : vecSum (v :: l) = v + vecSum l := rfl

theorem extract_fragment_length (scale : ℚ) (t0 : Vec2)
    (l : List (GlyphInfo × GlyphPos)) :
    (extract_fragment_glyphs scale t0 l).1.length = l.length := by
  induction l generalizing t0 with
  | nil => rfl
  | cons hd tl ih =>
    cases hd with
    | mk g p => simp [extract_fragment_glyphs, ih]

theorem extract_run_length (font : FontRef) (scale : ℚ) (t0 : Vec2)
    (l : List (GlyphInfo × GlyphPos)) :
    (extract_run_glyphs font scale t0 l).1.length = l.length := by
  induction l generalizing t0 with
  | nil => rfl
  | cons hd tl ih =>
    cases hd with
    | mk g p => simp [extract_run_glyphs, ih]

theorem extract_fragment_advances (scale : ℚ) (t0 : Vec2)
    (l : List (GlyphInfo × GlyphPos)) :
    (extract_fragment_glyphs scale t0 l).1.map FragmentGlyph.advance
      = l.map fun gp => scaled_advance scale gp.2 := by
  induction l generalizing t0 with
  | nil => rfl
  | cons hd tl ih =>
    cases hd with
    | mk g p => simp [extract_fragment_glyphs, ih]

theorem extract_fragment_total (scale : ℚ) (t0 : Vec2)
    (l : List (GlyphInfo × GlyphPos)) :
    (extract_fragment_glyphs scale t0 l).2
      = t0 + vecSum (l.map fun gp => scaled_advance scale gp.2) := by
  induction l generalizing t0 with
  | nil => simp [extract_fragment_glyphs, vecSum_nil, Vec2.add_zero]
  | cons hd tl ih =>
    cases hd with
    | mk g p =>
      simp only [extract_fragment_glyphs, List.map, vecSum_cons]
      rw [ih, Vec2.add_assoc]

theorem extract_run_total (font : FontRef) (scale : ℚ) (t0 : Vec2)
    (l : List (GlyphInfo × GlyphPos)) :
    (extract_run_glyphs font scale t0 l).2
      = t0 + vecSum (l.map fun gp => scaled_advance scale gp.2) := by
  induction l generalizing t0 with
  | nil => simp [extract_run_glyphs, vecSum_nil, Vec2.add_zero]
  | cons hd tl ih =>
    cases hd with
    | mk g p =>
      simp only [extract_run_glyphs, List.map, vecSum_cons]
      rw [ih, Vec2.add_assoc]

theorem extract_fragment_offset (scale : ℚ) (t0 : Vec2)
    (l : List (GlyphInfo × GlyphPos)) (i : Nat) (hp : i < l.length)
    (hg : i < (extract_fragment_glyphs scale t0 l).1.length) :
    ((extract_fragment_glyphs scale t0 l).1.get ⟨i, hg⟩).offset
      = t0 + vecSum ((l.take i).map fun gp => scaled_advance scale gp.2)
          + scaled_offset scale (l.get ⟨i, hp⟩).2 := by
  induction l generalizing t0 i with
  | nil => exact absurd hp (Nat.not_lt_zero i)
  | cons hd tl ih =>
    cases hd with
    | mk g p =>
      cases i with
      | zero =>
        simp [extract_fragment_glyphs, vecSum_nil, Vec2.add_zero]
      | succ j =>
        have hp' : j < tl.length := Nat.lt_of_succ_lt_succ hp
        have hg' : j < (extract_fragment_glyphs scale
            (t0 + scaled_advance scale p) tl).1.length := by
          rw [extract_fragment_length]
          exact hp'
        simp only [extract_fragment_glyphs, List.get_cons_succ, List.take_succ_cons,
          List.map, vecSum_cons]
        rw [ih (t0 + scaled_advance scale p) j hp' hg']
        simp only [Vec2.add_assoc]

theorem extract_run_offset (font : FontRef) (scale : ℚ) (t0 : Vec2)
    (l : List (GlyphInfo × GlyphPos)) (i : Nat) (hp : i < l.length)
    (hg : i < (extract_run_glyphs font scale t0 l).1.length) :
    ((extract_run_glyphs font scale t0 l).1.get ⟨i, hg⟩).offset
      = t0 + vecSum ((l.take i).map fun gp => scaled_advance scale gp.2)
          + scaled_offset scale (l.get ⟨i, hp⟩).2 := by
  induction l generalizing t0 i with
  | nil => exact absurd hp (Nat.not_lt_zero i)
  | cons hd tl ih =>
    cases hd with
    | mk g p =>
      cases i with
      | zero =>
        simp [extract_run_glyphs, vecSum_nil, Vec2.add_zero]
      | succ j =>
        have hp' : j < tl.length := Nat.lt_of_succ_lt_succ hp
        have hg' : j < (extract_run_glyphs font scale
            (t0 + scaled_advance scale p) tl).1.length := by
          rw [extract_run_length]
          exact hp'
        simp only [extract_run_glyphs, List.get_cons_succ, List.take_succ_cons,
          List.map, vecSum_cons]
        rw [ih (t0 + scaled_advance scale p) j hp' hg']
        simp only [Vec2.add_assoc]

theorem extract_fragment_break_flag (scale : ℚ) (t0 : Vec2)
    (l : List (GlyphInfo × GlyphPos)) (i : Nat) (hp : i < l.length)
    (hg : i < (extract_fragment_glyphs scale t0 l).1.length) :
    ((extract_fragment_glyphs scale t0 l).1.get ⟨i, hg⟩).unsafe_to_break
      = (hb_glyph_info_get_glyph_flags (l.get ⟨i, hp⟩).1
          &&& HB_GLYPH_FLAG_UNSAFE_TO_BREAK != 0) := by
  induction l generalizing t0 i with
  | nil => exact absurd hp (Nat.not_lt_zero i)
  | cons hd tl ih =>
    cases hd with
    | mk g p =>
      cases i with
      | zero => simp [extract_fragment_glyphs]
      | succ j =>
        have hp' : j < tl.length := Nat.lt_of_succ_lt_succ hp
        have hg' : j < (extract_fragment_glyphs scale
            (t0 + scaled_advance scale p) tl).1.length := by
          rw [extract_fragment_length]
          exact hp'
        simp only [extract_fragment_glyphs, List.get_cons_succ]
        exact ih (t0 + scaled_advance scale p) j hp' hg'

/-- When font data is available, `layout_fragment` succeeds and its glyph list
and advance are exactly those of the extraction loop run on the zipped engine
output with the accumulator seeded at `Vec2.zero`. -/
theorem layout_fragment_ok (e : Engine) (s : TextStyle) (f : FontRef)
    (sc : Nat) (t : String) (d : List Nat) (hd : f.fontData = some d) :
    layout_fragment e s f sc t
      = .ok { substr_len := t.utf8ByteSize
              script := sc
              glyphs := (extract_fragment_glyphs (glyph_scale s f) Vec2.zero
                (shaped_pairs e ⟨d⟩ (fragment_buffer sc t))).1
              advance := (extract_fragment_glyphs (glyph_scale s f) Vec2.zero
                (shaped_pairs e ⟨d⟩ (fragment_buffer sc t))).2
              hb_face := ⟨d⟩
              font := f } := by
  simp [layout_fragment, HbFace.new, FontRef.copy_font_data, hd]

/-- When font data is available, `layout_run` succeeds with the glyphs and
advance of the run extraction loop seeded at `Vec2.zero`. -/
theorem layout_run_ok (e : Engine) (s : TextStyle) (f : FontRef)
    (t : String) (d : List Nat) (hd : f.fontData = some d) :
    layout_run e s f t
      = .ok { size := s.size
              glyphs := (extract_run_glyphs f (glyph_scale s f) Vec2.zero
                (shaped_pairs e ⟨d⟩ (run_buffer t))).1
              advance := (extract_run_glyphs f (glyph_scale s f) Vec2.zero
                (shaped_pairs e ⟨d⟩ (run_buffer t))).2 } := by
  simp [layout_run, HbFace.new, FontRef.copy_font_data, hd]

/-- When font data is unavailable, `layout_fragment` aborts with the
`expect` panic of `HbFace::new`. -/
theorem layout_fragment_none (e : Engine) (s : TextStyle) (f : FontRef)
    (sc : Nat) (t : String) (hd : f.fontData = none) :
    layout_fragment e s f sc t = .panic "font data unavailable" := by
  simp [layout_fragment, HbFace.new, FontRef.copy_font_data, hd]

/-- When font data is unavailable, `layout_run` aborts with the `expect`
panic of `HbFace::new`. -/
theorem layout_run_none (e : Engine) (s : TextStyle) (f : FontRef)
    (t : String) (hd : f.fontData = none) :
    layout_run e s f t = .panic "font data unavailable" := by
  simp [layout_run, HbFace.new, FontRef.copy_font_data, hd]

/-! ## Concrete test data (used by the witness theorems) -/

/-- A well-formed test font: data available, 1000 design units per em. -/
def testFont : FontRef := { fontData := some [0, 1, 2], unitsPerEm := 1000 }

/-- A font whose raw data is unavailable (`copy_font_data` returns `None`). -/
def noDataFont : FontRef := { fontData := none, unitsPerEm := 1000 }

/-- A malformed font with a units-per-em metric of zero. -/
def zeroUpemFont : FontRef := { fontData := some [0], unitsPerEm := 0 }

/-- A test style requesting size 12. -/
def testStyle : TextStyle := { size := 12 }

/-- First test glyph info: the unsafe-to-break bit is set. -/
def testInfo1 : GlyphInfo := { codepoint := 5, cluster := 0, flags := 1 }

/-- Second test glyph info: no flags set. -/
def testInfo2 : GlyphInfo := { codepoint := 9, cluster := 1, flags := 0 }

/-- First test glyph position record. -/
def testPos1 : GlyphPos := { x_advance := 500, y_advance := 0, x_offset := 10, y_offset := -20 }

/-- Second test glyph position record. -/
def testPos2 : GlyphPos := { x_advance := 250, y_advance := 5, x_offset := 0, y_offset := 0 }

/-- A concrete deterministic test engine producing two glyphs. -/
def testEngine : Engine := fun _ _ => ([testInfo1, testInfo2], [testPos1, testPos2])

/-- A test engine producing no glyphs at all. -/
def emptyEngine : Engine := fun _ _ => ([], [])

/-- The fragment `layout_fragment testEngine testStyle testFont 99 "ab"`
evaluates to (`scale = 12/1000 = 3/250`). -/
def witFragment : LayoutFragment :=
  { substr_len := 2
    script := 99
    glyphs :=
      [ { cluster := 0, advance := ⟨6, 0⟩, glyph_id := 5,
          offset := ⟨3/25, -6/25⟩, unsafe_to_break := true },
        { cluster := 1, advance := ⟨3, 3/50⟩, glyph_id := 9,
          offset := ⟨6, 0⟩, unsafe_to_break := false } ]
    advance := ⟨9, 3/50⟩
    hb_face := ⟨[0, 1, 2]⟩
    font := testFont }

/-- Concrete evaluation of `layout_fragment` on the test data. -/
theorem witFragment_eval :
    layout_fragment testEngine testStyle testFont 99 "ab" = .ok witFragment := by
  norm_num [layout_fragment, shaped_pairs, extract_fragment_glyphs, glyph_scale,
    scaled_advance, scaled_offset, Vec2.scale, Vec2.add_def, Vec2.zero,
    HbFace.new, FontRef.copy_font_data, hb_glyph_info_get_glyph_flags,
    HB_GLYPH_FLAG_UNSAFE_TO_BREAK, testEngine, testFont, testStyle,
    testInfo1, testInfo2, testPos1, testPos2, witFragment]
  decide

/-- Concrete evaluation of `layout_fragment` with the empty engine and empty
text. -/
theorem emptyFragment_eval :
    layout_fragment emptyEngine testStyle testFont 7 ""
      = .ok { substr_len := 0, script := 7, glyphs := [], advance := Vec2.zero,
              hb_face := ⟨[0, 1, 2]⟩, font := testFont } := by
  simp [layout_fragment, shaped_pairs, extract_fragment_glyphs,
    HbFace.new, FontRef.copy_font_data, emptyEngine, testFont]
  decide

/-! ## Claim theorems -/

/-- C1: for every fragment returned by `layout_fragment` (and every `Layout`
returned by `layout_run`) the total `advance` field equals the vector sum,
over all glyphs in the output sequence, of that glyph's own scaled advance
vector (raw engine advance times scale). -/
theorem claim_C1_total_advance_is_sum :
    (∀ (e : Engine) (s : TextStyle) (f : FontRef) (sc : Nat) (t : String)
        (fr : LayoutFragment), layout_fragment e s f sc t = .ok fr →
        fr.advance = vecSum (fr.glyphs.map FragmentGlyph.advance)) ∧
    (∀ (e : Engine) (s : TextStyle) (f : FontRef) (sc : Nat) (t : String)
        (d : List Nat) (fr : LayoutFragment), f.fontData = some d →
        layout_fragment e s f sc t = .ok fr →
        fr.advance = vecSum ((shaped_pairs e ⟨d⟩ (fragment_buffer sc t)).map
          fun gp => scaled_advance (glyph_scale s f) gp.2)) ∧
    (∀ (e : Engine) (s : TextStyle) (f : FontRef) (t : String)
        (d : List Nat) (l : Layout), f.fontData = some d →
        layout_run e s f t = .ok l →
        l.advance = vecSum ((shaped_pairs e ⟨d⟩ (run_buffer t)).map
          fun gp => scaled_advance (glyph_scale s f) gp.2)) := by
  refine ⟨?_, ?_, ?_⟩
  · intro e s f sc t fr h
    cases hd : f.fontData with
    | none => rw [layout_fragment_none e s f sc t hd] at h; simp at h
    | some d =>
      rw [layout_fragment_ok e s f sc t d hd] at h
      injection h with h'
      rw [← h']
      show (extract_fragment_glyphs (glyph_scale s f) Vec2.zero _).2
        = vecSum ((extract_fragment_glyphs (glyph_scale s f) Vec2.zero _).1.map
            FragmentGlyph.advance)
      rw [extract_fragment_advances, extract_fragment_total, Vec2.zero_add]
  · intro e s f sc t d fr hd h
    rw [layout_fragment_ok e s f sc t d hd] at h
    injection h with h'
    rw [← h']
    show (extract_fragment_glyphs (glyph_scale s f) Vec2.zero _).2 = _
    rw [extract_fragment_total, Vec2.zero_add]
  · intro e s f t d l hd h
    rw [layout_run_ok e s f t d hd] at h
    injection h with h'
    rw [← h']
    show (extract_run_glyphs f (glyph_scale s f) Vec2.zero _).2 = _
    rw [extract_run_total, Vec2.zero_add]

/-- Witness for C1 at a concrete two-glyph input. -/
theorem claim_C1_witness :
    witFragment.advance = vecSum (witFragment.glyphs.map FragmentGlyph.advance) :=
  claim_C1_total_advance_is_sum.1 testEngine testStyle testFont 99 "ab"
    witFragment witFragment_eval

/-- C2: the `i`-th glyph's stored offset equals the sum of the scaled
advances of glyphs `0..i-1` plus the `i`-th glyph's own scaled offset; the
running accumulator starts at zero and the offset is stored before the
glyph's own advance is added. -/
theorem claim_C2_offset_prefix_sum :
    (∀ (e : Engine) (s : TextStyle) (f : FontRef) (sc : Nat) (t : String)
        (d : List Nat) (fr : LayoutFragment) (i : Nat), f.fontData = some d →
        layout_fragment e s f sc t = .ok fr →
        ∀ (hp : i < (shaped_pairs e ⟨d⟩ (fragment_buffer sc t)).length)
          (hg : i < fr.glyphs.length),
          (fr.glyphs.get ⟨i, hg⟩).offset
            = vecSum (((shaped_pairs e ⟨d⟩ (fragment_buffer sc t)).take i).map
                fun gp => scaled_advance (glyph_scale s f) gp.2)
              + scaled_offset (glyph_scale s f)
                  ((shaped_pairs e ⟨d⟩ (fragment_buffer sc t)).get ⟨i, hp⟩).2) ∧
    (∀ (e : Engine) (s : TextStyle) (f : FontRef) (t : String)
        (d : List Nat) (l : Layout) (i : Nat), f.fontData = some d →
        layout_run e s f t = .ok l →
        ∀ (hp : i < (shaped_pairs e ⟨d⟩ (run_buffer t)).length)
          (hg : i < l.glyphs.length),
          (l.glyphs.get ⟨i, hg⟩).offset
            = vecSum (((shaped_pairs e ⟨d⟩ (run_buffer t)).take i).map
                fun gp => scaled_advance (glyph_scale s f) gp.2)
              + scaled_offset (glyph_scale s f)
                  ((shaped_pairs e ⟨d⟩ (run_buffer t)).get ⟨i, hp⟩).2) := by
  constructor
  · intro e s f sc t d fr i hd h
    rw [layout_fragment_ok e s f sc t d hd] at h
    injection h with h'
    subst h'
    intro hp hg
    have hres := extract_fragment_offset (glyph_scale s f) Vec2.zero
      (shaped_pairs e ⟨d⟩ (fragment_buffer sc t)) i hp hg
    rw [Vec2.zero_add] at hres
    exact hres
  · intro e s f t d l i hd h
    rw [layout_run_ok e s f t d hd] at h
    injection h with h'
    subst h'
    intro hp hg
    have hres := extract_run_offset f (glyph_scale s f) Vec2.zero
      (shaped_pairs e ⟨d⟩ (run_buffer t)) i hp hg
    rw [Vec2.zero_add] at hres
    exact hres

/-- Witness for C2 at the second glyph of the concrete two-glyph input. -/
theorem claim_C2_witness :
    (witFragment.glyphs.get ⟨1, by decide⟩).offset
      = vecSum (((shaped_pairs testEngine ⟨[0, 1, 2]⟩ (fragment_buffer 99 "ab")).take 1).map
          fun gp => scaled_advance (glyph_scale testStyle testFont) gp.2)
        + scaled_offset (glyph_scale testStyle testFont)
            ((shaped_pairs testEngine ⟨[0, 1, 2]⟩ (fragment_buffer 99 "ab")).get
              ⟨1, by decide⟩).2 :=
  claim_C2_offset_prefix_sum.1 testEngine testStyle testFont 99 "ab" [0, 1, 2]
    witFragment 1 rfl witFragment_eval (by decide) (by decide)

/-- C3: a fragment glyph's `unsafe_to_break` field is `true` iff the engine's
flag word for that glyph has the `HB_GLYPH_FLAG_UNSAFE_TO_BREAK` bit set. -/
theorem claim_C3_break_flag :
    ∀ (e : Engine) (s : TextStyle) (f : FontRef) (sc : Nat) (t : String)
      (d : List Nat) (fr : LayoutFragment) (i : Nat), f.fontData = some d →
      layout_fragment e s f sc t = .ok fr →
      ∀ (hp : i < (shaped_pairs e ⟨d⟩ (fragment_buffer sc t)).length)
        (hg : i < fr.glyphs.length),
        ((fr.glyphs.get ⟨i, hg⟩).unsafe_to_break = true
          ↔ hb_glyph_info_get_glyph_flags
              ((shaped_pairs e ⟨d⟩ (fragment_buffer sc t)).get ⟨i, hp⟩).1
              &&& HB_GLYPH_FLAG_UNSAFE_TO_BREAK ≠ 0) := by
  intro e s f sc t d fr i hd h
  rw [layout_fragment_ok e s f sc t d hd] at h
  injection h with h'
  subst h'
  intro hp hg
  have hres := extract_fragment_break_flag (glyph_scale s f) Vec2.zero
    (shaped_pairs e ⟨d⟩ (fragment_buffer sc t)) i hp hg
  rw [hres]
  simp [bne_iff_ne]

/-- Witness for C3 at the first glyph (whose flag word has the bit set). -/
theorem claim_C3_witness :
    ((witFragment.glyphs.get ⟨0, by decide⟩).unsafe_to_break = true
      ↔ hb_glyph_info_get_glyph_flags
          ((shaped_pairs testEngine ⟨[0, 1, 2]⟩ (fragment_buffer 99 "ab")).get
            ⟨0, by decide⟩).1
          &&& HB_GLYPH_FLAG_UNSAFE_TO_BREAK ≠ 0) :=
  claim_C3_break_flag testEngine testStyle testFont 99 "ab" [0, 1, 2]
    witFragment 0 rfl witFragment_eval (by decide) (by decide)

/-- C4: the code does NOT raise a validation error for a font whose
units-per-em metric is zero: both `layout_fragment` and `layout_run` run the
scaling arithmetic (`scale = size / unitsPerEm`) unguarded and return a
normal result.  (In the `f32` source this produces an infinite or NaN scale;
in this `ℚ` model, division by zero yields `0`.)  This theorem evaluates the
code at the failing input. -/
theorem claim_C4_zero_upem_unguarded :
    zeroUpemFont.unitsPerEm = 0
      ∧ (layout_fragment testEngine testStyle zeroUpemFont 1 "a").isOk = true
      ∧ (layout_run testEngine testStyle zeroUpemFont "a").isOk = true :=
  ⟨rfl, rfl, rfl⟩

/-- C5: when extraction of the raw font bytes fails, face construction (and
hence the whole `layout_run` / `layout_fragment` operation) aborts with the
unrecoverable `expect` panic `"font data unavailable"`; when extraction
succeeds, no other failure path exists. -/
theorem claim_C5_font_data_abort :
    ∀ (e : Engine) (s : TextStyle) (f : FontRef) (sc : Nat) (t : String),
      (HbFace.new f = .panic "font data unavailable" ↔ f.copy_font_data = none)
      ∧ (layout_fragment e s f sc t).isOk = f.copy_font_data.isSome
      ∧ (layout_run e s f t).isOk = f.copy_font_data.isSome
      ∧ (layout_fragment e s f sc t = .panic "font data unavailable"
          ↔ f.copy_font_data = none)
      ∧ (layout_run e s f t = .panic "font data unavailable"
          ↔ f.copy_font_data = none) := by
  intro e s f sc t
  cases hd : f.fontData with
  | none =>
    simp [HbFace.new, FontRef.copy_font_data, hd,
      layout_fragment_none e s f sc t hd, layout_run_none e s f t hd,
      HbResult.isOk]
  | some d =>
    simp [HbFace.new, FontRef.copy_font_data, hd,
      layout_fragment_ok e s f sc t d hd, layout_run_ok e s f t d hd,
      HbResult.isOk]

/-- C6: scaling multiplies both axes of advance and offset by the single
scalar `scale = size / unitsPerEm`; in particular a glyph with raw advance
`(U, 0)` under style size `S` scales to `(S, 0)` when `U ≠ 0`. -/
theorem claim_C6_uniform_scale :
    (∀ (scale : ℚ) (pos : GlyphPos),
        scaled_advance scale pos
            = ⟨(pos.x_advance : ℚ) * scale, (pos.y_advance : ℚ) * scale⟩
          ∧ scaled_offset scale pos
            = ⟨(pos.x_offset : ℚ) * scale, (pos.y_offset : ℚ) * scale⟩) ∧
    (∀ (st : TextStyle) (f : FontRef) (pos : GlyphPos),
        f.unitsPerEm ≠ 0 → pos.x_advance = (f.unitsPerEm : Int) →
        pos.y_advance = 0 →
        scaled_advance (glyph_scale st f) pos = ⟨st.size, 0⟩) := by
  constructor
  · intro scale pos
    exact ⟨rfl, rfl⟩
  · intro st f pos hU hx hy
    have hUq : (f.unitsPerEm : ℚ) ≠ 0 := Nat.cast_ne_zero.mpr hU
    simp only [scaled_advance, Vec2.scale, glyph_scale, hx, hy,
      Int.cast_natCast, Int.cast_zero, Vec2.mk.injEq]
    constructor
    · rw [mul_comm, div_mul_cancel₀ _ hUq]
    · rw [zero_mul]

/-- Witness for C6: `U = 1000`, `S = 12`, raw advance `(1000, 0)`. -/
theorem claim_C6_witness :
    scaled_advance (glyph_scale testStyle testFont) ⟨1000, 0, 3, 4⟩
      = ⟨(12 : ℚ), 0⟩ :=
  claim_C6_uniform_scale.2 testStyle testFont ⟨1000, 0, 3, 4⟩ (by decide) rfl rfl

/-- C7: a successful `layout_fragment` records `substr_len` as the byte
length of the input text; when the engine yields no glyphs for empty text,
shaping the empty string yields an empty glyph sequence, zero total advance
and `substr_len = 0` (likewise empty glyphs and zero advance for
`layout_run`). -/
theorem claim_C7_empty_input :
    (∀ (e : Engine) (s : TextStyle) (f : FontRef) (sc : Nat) (t : String)
        (fr : LayoutFragment), layout_fragment e s f sc t = .ok fr →
        fr.substr_len = t.utf8ByteSize) ∧
    (∀ (e : Engine) (s : TextStyle) (f : FontRef) (sc : Nat) (d : List Nat)
        (fr : LayoutFragment), f.fontData = some d →
        (∀ (face : HbFace) (b : Buffer), b.text = "" → e face b = ([], [])) →
        layout_fragment e s f sc "" = .ok fr →
        fr.glyphs = [] ∧ fr.advance = Vec2.zero ∧ fr.substr_len = 0) ∧
    (∀ (e : Engine) (s : TextStyle) (f : FontRef) (d : List Nat) (l : Layout),
        f.fontData = some d →
        (∀ (face : HbFace) (b : Buffer), b.text = "" → e face b = ([], [])) →
        layout_run e s f "" = .ok l →
        l.glyphs = [] ∧ l.advance = Vec2.zero) := by
  refine ⟨?_, ?_, ?_⟩
  · intro e s f sc t fr h
    cases hd : f.fontData with
    | none => rw [layout_fragment_none e s f sc t hd] at h; simp at h
    | some d =>
      rw [layout_fragment_ok e s f sc t d hd] at h
      injection h with h'
      rw [← h']
  · intro e s f sc d fr hd he h
    rw [layout_fragment_ok e s f sc "" d hd] at h
    have hb : (fragment_buffer sc "").text = "" := rfl
    have hz : shaped_pairs e ⟨d⟩ (fragment_buffer sc "") = [] := by
      rw [shaped_pairs, he ⟨d⟩ (fragment_buffer sc "") hb]
      rfl
    rw [hz] at h
    injection h with h'
    rw [← h']
    exact ⟨rfl, rfl, rfl⟩
  · intro e s f d l hd he h
    rw [layout_run_ok e s f "" d hd] at h
    have hb : (run_buffer "").text = "" := rfl
    have hz : shaped_pairs e ⟨d⟩ (run_buffer "") = [] := by
      rw [shaped_pairs, he ⟨d⟩ (run_buffer "") hb]
      rfl
    rw [hz] at h
    injection h with h'
    rw [← h']
    exact ⟨rfl, rfl⟩

/-- Witness for C7: the empty engine on the empty string. -/
theorem claim_C7_witness :
    ({ substr_len := 0, script := 7, glyphs := [], advance := Vec2.zero,
       hb_face := ⟨[0, 1, 2]⟩, font := testFont } : LayoutFragment).glyphs = []
      ∧ ({ substr_len := 0, script := 7, glyphs := [], advance := Vec2.zero,
           hb_face := ⟨[0, 1, 2]⟩, font := testFont } : LayoutFragment).advance
          = Vec2.zero
      ∧ ({ substr_len := 0, script := 7, glyphs := [], advance := Vec2.zero,
           hb_face := ⟨[0, 1, 2]⟩, font := testFont } : LayoutFragment).substr_len
          = 0 :=
  claim_C7_empty_input.2.1 emptyEngine testStyle testFont 7 [0, 1, 2] _ rfl
    (fun _ _ _ => rfl) emptyFragment_eval

/-- C8: `layout_run` configures the buffer with left-to-right direction, the
one fixed hard-coded script tag (`HB_SCRIPT_DEVANAGARI`, the same on every
call, independent of the text) and language `"en_US"`; a `Glyph` of the
resulting `Layout` carries only a font, a glyph id and an offset — no
cluster id and no break-safety flag. -/
theorem claim_C8_run_buffer_config :
    (∀ t : String, (run_buffer t).direction = Direction.LTR
        ∧ (run_buffer t).script = HB_SCRIPT_DEVANAGARI
        ∧ (run_buffer t).language = "en_US") ∧
    (∀ t₁ t₂ : String, (run_buffer t₁).script = (run_buffer t₂).script) ∧
    (∀ g : Glyph, g = ⟨g.font, g.glyph_id, g.offset⟩) := by
  exact ⟨fun t => ⟨rfl, rfl, rfl⟩, fun t₁ t₂ => rfl, fun g => rfl⟩

/-- C9: `layout_fragment` is a pure, deterministic function of its inputs:
two calls on equal `(style, font, script, text)` tuples against the same
engine yield results equal in every field. -/
theorem claim_C9_purity :
    ∀ (e : Engine) (s s' : TextStyle) (f f' : FontRef) (sc sc' : Nat)
      (t t' : String), s = s' → f = f' → sc = sc' → t = t' →
      layout_fragment e s f sc t = layout_fragment e s' f' sc' t' := by
  intro e s s' f f' sc sc' t t' hs hf hsc ht
  subst hs
  subst hf
  subst hsc
  subst ht
  rfl

/-- Witness for C9 at a concrete input. -/
theorem claim_C9_witness :
    layout_fragment testEngine testStyle testFont 99 "ab"
      = layout_fragment testEngine testStyle testFont 99 "ab" :=
  claim_C9_purity testEngine testStyle testStyle testFont testFont 99 99
    "ab" "ab" rfl rfl rfl rfl

/-- C10: `layout_fragment` always sets the buffer's writing direction to
left-to-right, whatever script tag the caller supplies. -/
theorem claim_C10_fragment_always_ltr :
    ∀ (script : Nat) (text : String),
      (fragment_buffer script text).direction = Direction.LTR := by
  intro script text
  rfl

end Skribo
